import Mathlib

/-!
Shallow embedding of `src/index.ts` of the config-loader repository.

The program loads `<name>.config.ts`, bundles it with esbuild into
`node_modules/.<name>/config.js` unless a persisted hash cache proves every
input file unchanged, then dynamically imports the artifact and returns its
`config` export together with the list of dependency paths.

Modelling choices:
* The filesystem is a map from paths to optional text contents.
* External collaborators (the sha1 digest of `node:crypto`, `JSON.parse`,
  the esbuild `build` capability and the dynamic-import module execution)
  are fields of a `Caps` record; the repository's own code is translated
  directly.  `JSON.stringify` (compact, no indent argument, exactly as the
  source calls it) is implemented concretely so that statements about the
  persisted cache text are decidable.
* A thrown JS exception is an `Except.error`; `JSON.parse` failure is
  modelled by the parse capability returning `none`.
* JS values reaching the `config` export are modelled by `JSValue`,
  including truthiness, `typeof f === "function"` and promises, so that the
  `!module.config` check and the `await` of a deferred producer are
  faithful.
* The untyped cast `JSON.parse(content) as T` means the cached `files`
  value can be any JSON: the revalidation models JS faithfully — a falsy
  `files` takes the `!files` rebuild branch, a truthy non-array raises a
  TypeError at `files.some`, destructuring `[path, hash]` accepts arrays
  and (iterable) strings and raises a TypeError on anything else, a
  non-string path makes the validation read raise, and a non-string
  fingerprint is simply a strict-inequality mismatch.
-/

set_option autoImplicit false

namespace ConfigLoader

/-- A filesystem: maps a path to the file's text content, `none` when the
file does not exist. -/
abbrev FS := String → Option String

/-- Overwrite (or create) the file at `path`, as `writeFileSync` does. -/
def FS.write (fs : FS) (path content : String) : FS :=
  fun p => if p = path then some content else fs p

/-- JSON values, the data stored in the `config-hashes.json` cache file. -/
inductive Json where
  | null
  | bool (b : Bool)
  | num (n : Int)
  | str (s : String)
  | arr (elems : List Json)
  | obj (fields : List (String × Json))

/-- JS values that a loaded configuration module can export. -/
inductive JSValue where
  | undefined
  | null
  | bool (b : Bool)
  | num (n : Int)
  | str (s : String)
  | obj (fields : List (String × JSValue))
  | func (f : Unit → JSValue)
  | promise (inner : JSValue)

/-- JS truthiness, as used by `if (!module.config)` and `!content`. -/
def JSValue.truthy : JSValue → Bool
  | .undefined => false
  | .null => false
  | .bool b => b
  | .num n => n != 0
  | .str s => s != ""
  | .obj _ => true
  | .func _ => true
  | .promise _ => true

/-- The `typeof v === "function"` test. -/
def JSValue.isFunction : JSValue → Bool
  | .func _ => true
  | _ => false

/-- Awaiting a JS value: a promise resolves to its inner value, any other
value is passed through unchanged. -/
def JSValue.jsAwait : JSValue → JSValue
  | .promise v => v
  | v => v

/-- Errors that abort `loadConfig` (thrown JS exceptions). -/
inductive LoadError where
  | jsonParse (content : String)
  | buildFailed (message : String)
  | enoent (path : String)
  | importFailed (path : String)
  | missingExport (message : String)
  | typeError (message : String)
deriving DecidableEq

/-- External capabilities of the program: the sha1 digest, `JSON.parse`,
the esbuild bundler (`build fs entryPoint outfile` either fails with a
message or yields the metafile input paths and the artifact text it writes
to `outfile`), and module execution (the value of the `config` export of
the artifact text, `undefined` when the export is absent). -/
structure Caps where
  sha1Hex : String → String
  jsonParse : String → Option Json
  build : FS → String → String → Except String (List String × String)
  execute : String → JSValue

/-- getHash from the source: the hex sha1 digest of the content bytes (the
string and buffer branches of the source digest the same bytes). -/
def getHash (caps : Caps) (content : String) : String :=
  caps.sha1Hex content

/-- readMaybeFileSync: `readFileSync` that returns `undefined` on ENOENT.
In this filesystem model the only read failure is a missing file. -/
def readMaybeFileSync (fs : FS) (path : String) : Option String :=
  fs path

/-- Plain `readFileSync`, which throws when the file is missing. -/
def readFileSync (fs : FS) (path : String) : Except LoadError String :=
  match fs path with
  | some content => .ok content
  | none => .error (.enoent path)

/-- Lowercase hexadecimal digit, for the \u00XX escapes of control
characters. -/
def hexDigit (n : Nat) : String :=
  String.singleton (if n < 10 then Char.ofNat (48 + n) else Char.ofNat (87 + n))

/-- JSON string escaping as performed by `JSON.stringify`: the quote and
backslash, the named control escapes \b \t \n \f \r, and \u00XX for the
remaining control characters. -/
def Json.escapeChar (c : Char) : String :=
  if c = '"' then "\\\""
  else if c = '\\' then "\\\\"
  else if c = '\x08' then "\\b"
  else if c = '\t' then "\\t"
  else if c = '\n' then "\\n"
  else if c = '\x0c' then "\\f"
  else if c = '\r' then "\\r"
  else if c.toNat < 32 then "\\u00" ++ hexDigit (c.toNat / 16) ++ hexDigit (c.toNat % 16)
  else String.singleton c

/-- Quote a string as a JSON string literal. -/
def Json.quote (s : String) : String :=
  "\"" ++ String.join (s.data.map Json.escapeChar) ++ "\""

mutual

/-- Compact `JSON.stringify`, exactly as the source invokes it (no indent
argument, hence no added whitespace). -/
def Json.stringify : Json → String
  | .null => "null"
  | .bool true => "true"
  | .bool false => "false"
  | .num n => toString n
  | .str s => Json.quote s
  | .arr elems => "[" ++ Json.stringifyElems elems ++ "]"
  | .obj fields => "\x7b" ++ Json.stringifyFields fields ++ "\x7d"

/-- Comma-separated rendering of array elements. -/
def Json.stringifyElems : List Json → String
  | [] => ""
  | [j] => Json.stringify j
  | j :: rest => Json.stringify j ++ "," ++ Json.stringifyElems rest

/-- Comma-separated rendering of object fields. -/
def Json.stringifyFields : List (String × Json) → String
  | [] => ""
  | [f] => Json.quote f.1 ++ ":" ++ Json.stringify f.2
  | f :: rest =>
    Json.quote f.1 ++ ":" ++ Json.stringify f.2 ++ "," ++ Json.stringifyFields rest

end

/-- Two-space indentation for a nesting depth, as produced by the indent
argument `2` of `JSON.stringify`. -/
def prettyIndent (depth : Nat) : String :=
  String.mk (List.replicate (2 * depth) ' ')

mutual

/-- Pretty-printed JSON following the spec's words for the cache write
("persists ... as pretty-printed JSON"), i.e. `JSON.stringify(value, null, 2)`:
object and array entries are newline-separated and indented two spaces per
depth level, with a space after each key's colon.  This definition follows
the spec, not the source, and exists to compare the two renderings. -/
def Json.stringifyPretty (depth : Nat) : Json → String
  | .null => "null"
  | .bool true => "true"
  | .bool false => "false"
  | .num n => toString n
  | .str s => Json.quote s
  | .arr [] => "[]"
  | .arr (j :: rest) =>
    "[\n" ++ prettyIndent (depth + 1) ++ Json.prettyElems (depth + 1) (j :: rest)
      ++ "\n" ++ prettyIndent depth ++ "]"
  | .obj [] => "\x7b\x7d"
  | .obj (f :: rest) =>
    "\x7b\n" ++ prettyIndent (depth + 1) ++ Json.prettyFields (depth + 1) (f :: rest)
      ++ "\n" ++ prettyIndent depth ++ "\x7d"

/-- Pretty-printed array elements, separated by a comma, newline, indent. -/
def Json.prettyElems (depth : Nat) : List Json → String
  | [] => ""
  | [j] => Json.stringifyPretty depth j
  | j :: rest =>
    Json.stringifyPretty depth j ++ ",\n" ++ prettyIndent depth
      ++ Json.prettyElems depth rest

/-- Pretty-printed object fields, separated by a comma, newline, indent. -/
def Json.prettyFields (depth : Nat) : List (String × Json) → String
  | [] => ""
  | [f] => Json.quote f.1 ++ ": " ++ Json.stringifyPretty depth f.2
  | f :: rest =>
    Json.quote f.1 ++ ": " ++ Json.stringifyPretty depth f.2 ++ ",\n"
      ++ prettyIndent depth ++ Json.prettyFields depth rest

end

/-- Property access `j.k` on a parsed JSON value: `none` plays the role of
`undefined` (absent field or non-object receiver). -/
def Json.getField : Json → String → Option Json
  | .obj fields, k => fields.lookup k
  | _, _ => none

/-- The effect of `delete json.version` (generally: of deleting field `k`). -/
def Json.deleteField (j : Json) (k : String) : Json :=
  match j with
  | .obj fields => .obj (fields.filter fun f => f.1 != k)
  | j => j

/-- JS strict equality as used by the `json.version !== version` check: the
parsed field is compared against the caller-supplied primitive version; a
freshly parsed object or array is a distinct reference and never strictly
equal, and an absent field is compared as `undefined` by the caller. -/
def jsStrictEq : Json → Json → Bool
  | .num a, .num b => a == b
  | .str a, .str b => a == b
  | .bool a, .bool b => a == b
  | .null, .null => true
  | _, _ => false

namespace jsonCache

/-- jsonCache(path, version).read(): the `if (!content) return` guard makes
a missing file and an existing empty file both absent; otherwise the content
is parsed (a `JSON.parse` failure propagates as an error) and `none` is
returned on a version mismatch, stripping the version field on success. -/
def read (parse : String → Option Json) (path : String) (version : Json)
    (fs : FS) : Except LoadError (Option Json) :=
  match readMaybeFileSync fs path with
  | none => .ok none
  | some content =>
    if content = "" then .ok none
    else match parse content with
    | none => .error (.jsonParse content)
    | some json =>
      match json.getField ("version") with
      | some v =>
        if jsStrictEq v version then .ok (some (json.deleteField ("version")))
        else .ok none
      | none => .ok none

end jsonCache

/-- The object literal `{ version, ...data }`: keys appear in insertion
order with the first occurrence keeping its position, and a `version` key
spread in from the payload overrides the stamped value. -/
def spreadVersion (version : Json) (data : List (String × Json)) :
    List (String × Json) :=
  ("version", (data.lookup ("version")).getD version)
    :: data.filter fun f => f.1 != "version"

/-- jsonCache(path, version).write(data): writes
`JSON.stringify({ version, ...data })`, fully replacing the file. -/
def jsonCache.write (path : String) (version : Json)
    (data : List (String × Json)) (fs : FS) : FS :=
  FS.write fs path (Json.stringify (.obj (spreadVersion version data)))

/-- The stored values that the destructuring `([path, hash]) =>` of the
source reads as a (string path, string fingerprint) record: an array whose
first two items are strings, or — since JS strings are iterable — a string
of at least two characters, whose first two characters are taken. -/
def Json.decodePair : Json → Option (String × String)
  | .arr (p :: h :: _) =>
    match p, h with
    | .str p, .str h => some (p, h)
    | _, _ => none
  | .str s =>
    match s.data with
    | c1 :: c2 :: _ => some (String.singleton c1, String.singleton c2)
    | _ => none
  | _ => none

/-- Decode a list of `[path, hash]` entries, failing if any entry does. -/
def Json.decodePairs : List Json → Option (List (String × String))
  | [] => some []
  | j :: rest =>
    match Json.decodePair j, Json.decodePairs rest with
    | some pr, some tail => some (pr :: tail)
    | _, _ => none

/-- Decode the cached `files` array into dependency records. -/
def Json.decodeFiles : Json → Option (List (String × String))
  | .arr elems => Json.decodePairs elems
  | _ => none

/-- The `cache.read()?.files` access: the dependency records stored in the
cache, `none` when the cache was absent/mismatched or its `files` field is
unusable. -/
def cachedFiles (cached : Option Json) : Option (List (String × String)) :=
  cached.bind fun j => (j.getField ("files")).bind Json.decodeFiles

/-- One well-formed dependency record fails revalidation:
`!content || getHash(content) !== hash` — a missing file, an empty file
(JS falsiness of the empty string), or a changed fingerprint.  `depCheck`
below extends this to the untyped values the cache can actually hold. -/
def depBad (caps : Caps) (fs : FS) (pr : String × String) : Bool :=
  match readMaybeFileSync fs pr.1 with
  | none => true
  | some content => content == "" || getHash caps content != pr.2

/-- JS truthiness of a parsed JSON value, for the `!files` test. -/
def Json.truthy : Json → Bool
  | .null => false
  | .bool b => b
  | .num n => n != 0
  | .str s => s != ""
  | .arr _ => true
  | .obj _ => true

/-- JS array destructuring `[path, hash] = e` of a parsed JSON value:
arrays yield their first two items, strings are iterable and yield their
first two characters (`none` plays the role of an `undefined` hole), and
any other value raises a TypeError. -/
def destructurePair : Json → Except LoadError (Option Json × Option Json)
  | .arr xs => .ok (xs.get? 0, xs.get? 1)
  | .str s =>
    .ok ((s.data.get? 0).map fun c => Json.str (String.singleton c),
      (s.data.get? 1).map fun c => Json.str (String.singleton c))
  | _ => .error (.typeError ("value is not iterable"))

/-- The body of `files.some(([path, hash]) => ...)` on one stored element:
destructure the record (TypeError on a non-iterable), read the file at the
path (a non-string path makes `readFileSync` raise a non-ENOENT error that
`readMaybeFileSync` rethrows), apply the `!content` falsiness test, and
compare the fresh fingerprint with strict inequality — against a non-string
stored fingerprint the comparison is simply always a mismatch.  `ok true`
marks the cache invalid, `ok false` keeps checking. -/
def depCheck (caps : Caps) (fs : FS) (e : Json) : Except LoadError Bool :=
  match destructurePair e with
  | .error err => .error err
  | .ok (path?, hash?) =>
    match path? with
    | some (.str p) =>
      match readMaybeFileSync fs p with
      | none => .ok true
      | some content =>
        if content = "" then .ok true
        else
          match hash? with
          | some (.str h) => .ok (getHash caps content != h)
          | _ => .ok true
    | _ => .error (.typeError ("path is not a string"))

/-- `files.some(...)` over the stored elements, with JS short-circuiting:
the first invalid record decides, so a TypeError hiding behind an earlier
invalid record is never raised. -/
def jsonSome (caps : Caps) (fs : FS) : List Json → Except LoadError Bool
  | [] => .ok false
  | e :: rest =>
    match depCheck caps fs e with
    | .error err => .error err
    | .ok true => .ok true
    | .ok false => jsonSome caps fs rest

/-- Outcome of the whole `!files || files.some(...)` test. -/
inductive CacheCheck where
  | rebuild
  | reuse (elems : List Json)
  | crash (e : LoadError)

/-- The rebuild decision on the value of `cache.read()?.files`: a missing
or falsy value takes the `!files` rebuild branch, a truthy non-array raises
a TypeError at `.some`, and an array is revalidated element by element. -/
def checkCache (caps : Caps) (fs : FS) (cached : Option Json) : CacheCheck :=
  match cached.bind fun j => j.getField ("files") with
  | none => .rebuild
  | some files =>
    if files.truthy then
      match files with
      | .arr elems =>
        match jsonSome caps fs elems with
        | .error e => .crash e
        | .ok true => .rebuild
        | .ok false => .reuse elems
      | _ => .crash (.typeError ("files.some is not a function"))
    else .rebuild

/-- Indexing `f[0]` on a record kept from a reused cache: arrays index
their items, strings index their characters. -/
def jsFirst : Json → Option Json
  | .arr xs => xs.get? 0
  | .str s => (s.data.get? 0).map fun c => Json.str (String.singleton c)
  | _ => none

/-- The final `files.map((f) => f[0])` over the reused records.  The reuse
branch is only reachable when every record destructured to a string path,
and there `f[0]` is exactly that path, so the default is never taken. -/
def skipFiles (elems : List Json) : List String :=
  elems.map fun e =>
    match jsFirst e with
    | some (.str p) => p
    | _ => ""

/-- Entry file path `<name>.config.ts`. -/
def entryPoint (name : String) : String :=
  name ++ ".config.ts"

/-- Per-name private cache directory `node_modules/.<name>`. -/
def cacheDir (name : String) : String :=
  "node_modules/." ++ name

/-- Compiled artifact path `node_modules/.<name>/config.js`. -/
def outputPath (name : String) : String :=
  cacheDir name ++ "/config.js"

/-- Cache record path `node_modules/.<name>/config-hashes.json`. -/
def cacheFilePath (name : String) : String :=
  cacheDir name ++ "/config-hashes.json"

/-- Marker file path `node_modules/.<name>/package.json`. -/
def packageJsonPath (name : String) : String :=
  cacheDir name ++ "/package.json"

/-- The error thrown when the loaded module's `config` export is falsy. -/
def configExportError (entry : String) : LoadError :=
  .missingExport (entry ++ " doesn\x27t have a \x22config\x22 export")

/-- Resolution of the export, exactly the source ternary
`typeof module.config === "function" ? await module.config() : module.config`. -/
def resolveConfigExport : JSValue → JSValue
  | .func f => JSValue.jsAwait (f ())
  | v => v

/-- The value returned by a successful `loadConfig`. -/
structure ResolveResult where
  config : JSValue
  files : List String

/-- Result of one `loadConfig` invocation: the filesystem after the call,
whether the build capability was invoked, and the returned value or the
thrown error (`ok none` is the `undefined` return for an absent entry). -/
structure Outcome where
  fs : FS
  compiled : Bool
  result : Except LoadError (Option ResolveResult)

/-- Hash the build's input files:
`Object.keys(result.metafile.inputs).map((path) => [path, getHash(readFileSync(path))])`,
throwing at the first unreadable input. -/
def hashInputs (caps : Caps) (fs : FS) : List String → Except LoadError (List (String × String))
  | [] => .ok []
  | p :: rest =>
    match fs p with
    | none => .error (.enoent p)
    | some content =>
      (hashInputs caps fs rest).map fun tail => (p, getHash caps content) :: tail

/-- The cached `files` value rendered back to JSON for `cache.write({ files })`. -/
def filesToJson (files : List (String × String)) : Json :=
  .arr (files.map fun pr => .arr [.str pr.1, .str pr.2])

/-- The full JSON record that `cache.write({ files })` persists. -/
def cacheRecordJson (files : List (String × String)) : Json :=
  .obj [("version", .num 4), ("files", filesToJson files)]

/-- The tail of `loadConfig`: `await import(...)` of the artifact followed
by the `config`-export checks and the construction of the returned value;
`files` is the already-projected `files.map((f) => f[0])` path list. -/
def finishLoad (caps : Caps) (entry output : String) (fs : FS) (compiled : Bool)
    (files : List String) : Outcome :=
  match fs output with
  | none => ⟨fs, compiled, .error (.importFailed output)⟩
  | some artifact =>
    let cfg := caps.execute artifact
    if cfg.truthy then
      ⟨fs, compiled, .ok (some ⟨resolveConfigExport cfg, files⟩)⟩
    else
      ⟨fs, compiled, .error (configExportError entry)⟩

/-- The recompilation branch of `loadConfig`: run the bundler, hash its
inputs, persist the cache record and the module-type marker, then load. -/
def rebuild (caps : Caps) (name : String) (fs : FS) : Outcome :=
  match caps.build fs (entryPoint name) (outputPath name) with
  | .error msg => ⟨fs, true, .error (.buildFailed msg)⟩
  | .ok (inputs, artifact) =>
    let fs1 := FS.write fs (outputPath name) artifact
    match hashInputs caps fs1 inputs with
    | .error e => ⟨fs1, true, .error e⟩
    | .ok files =>
      let fs2 := jsonCache.write (cacheFilePath name) (.num 4)
        [("files", filesToJson files)] fs1
      let fs3 := FS.write fs2 (packageJsonPath name) ("\x7b \x22type\x22: \x22module\x22 \x7d")
      finishLoad caps (entryPoint name) (outputPath name) fs3 true (files.map Prod.fst)

/-- loadConfig from the source: existence check, cache read, revalidation,
compile when needed, then import and export resolution. -/
def loadConfig (caps : Caps) (name : String) (fs : FS) : Outcome :=
  match fs (entryPoint name) with
  | none => ⟨fs, false, .ok none⟩
  | some _ =>
    match jsonCache.read caps.jsonParse (cacheFilePath name) (.num 4) fs with
    | .error e => ⟨fs, false, .error e⟩
    | .ok cached =>
      match checkCache caps fs cached with
      | .crash e => ⟨fs, false, .error e⟩
      | .rebuild => rebuild caps name fs
      | .reuse elems =>
        finishLoad caps (entryPoint name) (outputPath name) fs false
          (skipFiles elems)

/-- The filesystem state after the writes of a successful recompilation:
the artifact, then the cache record, then the module-type marker.  This is
the composition `rebuild` performs; it is named so that theorems can speak
about the written state. -/
def rebuiltFS (name : String) (fs : FS) (artifact : String)
    (files : List (String × String)) : FS :=
  FS.write
    (jsonCache.write (cacheFilePath name) (.num 4) [("files", filesToJson files)]
      (FS.write fs (outputPath name) artifact))
    (packageJsonPath name) ("\x7b \x22type\x22: \x22module\x22 \x7d")

/-! ### Concrete instances of the external capabilities, for evaluating the
theorems on explicit inputs. -/

/-- Stand-in for the sha1 digest capability: deterministic and, on the
contents used below, collision-free like the real digest. -/
def testSha1 (s : String) : String :=
  "sha1:" ++ s

/-- Dependency record list for an entry file with content `export cfg`. -/
def depsA : List (String × String) :=
  [("app.config.ts", testSha1 ("export cfg"))]

/-- Dependency record list naming a separate dependency file `dep.ts`. -/
def depsB : List (String × String) :=
  [("dep.ts", testSha1 ("d"))]

/-- Dependency record list for an entry file with empty content. -/
def depsE : List (String × String) :=
  [("app.config.ts", testSha1 (""))]

/-- Cache file text for `depsA`. -/
def strCacheA : String :=
  Json.stringify (cacheRecordJson depsA)

/-- Cache file text for `depsB`. -/
def strCacheB : String :=
  Json.stringify (cacheRecordJson depsB)

/-- Cache file text for `depsE`. -/
def strCacheE : String :=
  Json.stringify (cacheRecordJson depsE)

/-- Stand-in for `JSON.parse`: inverts `Json.stringify` on the cache texts
that occur in the concrete scenarios below, and fails on anything else. -/
def testParse (s : String) : Option Json :=
  if s = strCacheA then some (cacheRecordJson depsA)
  else if s = strCacheB then some (cacheRecordJson depsB)
  else if s = strCacheE then some (cacheRecordJson depsE)
  else none

/-- Stand-in for the bundler: the entry file is the only input and the
artifact text is fixed. -/
def testBuild (_ : FS) (entry : String) (_ : String) :
    Except String (List String × String) :=
  .ok ([entry], "built-artifact")

/-- Capabilities whose executed module exports a plain (truthy) object. -/
def testCaps : Caps :=
  ⟨testSha1, testParse, testBuild, fun _ => .obj []⟩

/-- Capabilities whose executed module exports an async producer of 3000. -/
def capsDeferred : Caps :=
  { testCaps with execute := fun _ => .func fun _ => .promise (.num 3000) }

/-- Capabilities whose executed module has no `config` export. -/
def capsNoExport : Caps :=
  { testCaps with execute := fun _ => .undefined }

/-- Capabilities whose executed module exports the falsy value `0`. -/
def capsZero : Caps :=
  { testCaps with execute := fun _ => .num 0 }

/-- An empty filesystem. -/
def fsEmpty : FS :=
  fun _ => none

/-- Filesystem with only the entry file, content `export cfg`. -/
def fsFresh : FS :=
  fun p => if p = entryPoint ("app") then some ("export cfg") else none

/-- Filesystem with the entry file, a matching valid cache record, and a
previously compiled artifact. -/
def fsValidCache : FS :=
  fun p =>
    if p = entryPoint ("app") then some ("export cfg")
    else if p = cacheFilePath ("app") then some strCacheA
    else if p = outputPath ("app") then some ("old-artifact")
    else none

/-- Filesystem with only an empty entry file. -/
def fsEmptyFresh : FS :=
  fun p => if p = entryPoint ("app") then some ("") else none

/-- Filesystem whose cache record names a dependency `dep.ts` that has been
deleted. -/
def fsMissingDep : FS :=
  fun p =>
    if p = entryPoint ("app") then some ("x")
    else if p = cacheFilePath ("app") then some strCacheB
    else none

/-- Filesystem holding one unparseable cache file. -/
def fsGarbage : FS :=
  fun p => if p = cacheFilePath ("app") then some ("garbage") else none

/-- Filesystem holding one existing but empty cache file. -/
def fsEmptyCacheFile : FS :=
  fun p => if p = cacheFilePath ("app") then some ("") else none

/-! ### Helper lemmas -/

theorem depBad_eq_false_iff (caps : Caps) (fs : FS) (pr : String × String) :
    depBad caps fs pr = false ↔
      ∃ c, fs pr.1 = some c ∧ c ≠ "" ∧ getHash caps c = pr.2 := by
  unfold depBad readMaybeFileSync
  cases h : fs pr.1 <;> simp [h]

theorem hashInputs_spec (caps : Caps) (fs : FS) (inputs : List String)
    (files : List (String × String)) (h : hashInputs caps fs inputs = .ok files) :
    files.map Prod.fst = inputs ∧
      ∀ pr ∈ files, pr.1 ∈ inputs ∧ ∃ c, fs pr.1 = some c ∧ getHash caps c = pr.2 := by
  induction inputs generalizing files with
  | nil =>
    unfold hashInputs at h
    cases h
    simp
  | cons p rest ih =>
    unfold hashInputs at h
    cases hp : fs p with
    | none => rw [hp] at h; cases h
    | some c =>
      rw [hp] at h
      cases hr : hashInputs caps fs rest with
      | error e => rw [hr] at h; cases h
      | ok tail =>
        rw [hr] at h
        cases h
        obtain ⟨ih1, ih2⟩ := ih tail hr
        refine ⟨by simp [ih1], ?_⟩
        intro pr hpr
        rcases List.mem_cons.mp hpr with heq | hmem
        · subst heq
          exact ⟨by simp, c, hp, rfl⟩
        · obtain ⟨hin, hc⟩ := ih2 pr hmem
          exact ⟨by simp [hin], hc⟩

theorem decodePairs_map (files : List (String × String)) :
    Json.decodePairs (files.map fun pr => Json.arr [.str pr.1, .str pr.2])
      = some files := by
  induction files with
  | nil => rfl
  | cons f rest ih =>
    simp only [List.map_cons, Json.decodePairs, Json.decodePair, ih]

theorem append_ne_of_length_ne (s a b : String) (h : a.length ≠ b.length) :
    s ++ a ≠ s ++ b := by
  intro he
  apply h
  have h2 := congrArg String.length he
  rw [String.length_append, String.length_append] at h2
  omega

theorem outputPath_ne_cacheFilePath (name : String) :
    outputPath name ≠ cacheFilePath name :=
  append_ne_of_length_ne _ _ _ (by decide)

theorem outputPath_ne_packageJsonPath (name : String) :
    outputPath name ≠ packageJsonPath name :=
  append_ne_of_length_ne _ _ _ (by decide)

theorem cacheFilePath_ne_packageJsonPath (name : String) :
    cacheFilePath name ≠ packageJsonPath name :=
  append_ne_of_length_ne _ _ _ (by decide)

theorem finishLoad_compiled (caps : Caps) (entry output : String) (fs : FS)
    (b : Bool) (files : List String) :
    (finishLoad caps entry output fs b files).compiled = b := by
  unfold finishLoad
  cases fs output with
  | none => rfl
  | some artifact =>
    dsimp only
    split <;> rfl

theorem finishLoad_fs (caps : Caps) (entry output : String) (fs : FS)
    (b : Bool) (files : List String) :
    (finishLoad caps entry output fs b files).fs = fs := by
  unfold finishLoad
  cases fs output with
  | none => rfl
  | some artifact =>
    dsimp only
    split <;> rfl

theorem rebuild_compiled (caps : Caps) (name : String) (fs : FS) :
    (rebuild caps name fs).compiled = true := by
  unfold rebuild
  cases caps.build fs (entryPoint name) (outputPath name) with
  | error e => rfl
  | ok pr =>
    obtain ⟨inputs, artifact⟩ := pr
    dsimp only
    cases hashInputs caps (FS.write fs (outputPath name) artifact) inputs with
    | error e => rfl
    | ok files => exact finishLoad_compiled ..

theorem stringify_obj_ne_empty (fields : List (String × Json)) :
    Json.stringify (.obj fields) ≠ "" := by
  intro h
  have h2 := congrArg String.length h
  rw [show Json.stringify (.obj fields)
      = "\x7b" ++ Json.stringifyFields fields ++ "\x7d" from rfl] at h2
  rw [String.length_append, String.length_append] at h2
  simp at h2
  exact absurd h2.1.1 (by decide)

theorem read_written_cache (parse : String → Option Json) (path : String)
    (fs : FS) (files : List (String × String))
    (hc : fs path = some (Json.stringify (cacheRecordJson files)))
    (hp : parse (Json.stringify (cacheRecordJson files)) = some (cacheRecordJson files)) :
    jsonCache.read parse path (.num 4) fs
      = .ok (some (Json.obj [("files", filesToJson files)])) := by
  unfold jsonCache.read readMaybeFileSync
  rw [hc]
  dsimp only
  rw [if_neg (show Json.stringify (cacheRecordJson files) ≠ ("")
    from stringify_obj_ne_empty _), hp]
  rfl

theorem FS.write_self (fs : FS) (path content : String) :
    FS.write fs path content path = some content := by
  simp [FS.write]

theorem FS.write_ne (fs : FS) (path content q : String) (h : q ≠ path) :
    FS.write fs path content q = fs q := by
  simp [FS.write, h]

theorem rebuiltFS_output (name : String) (fs : FS) (artifact : String)
    (files : List (String × String)) :
    rebuiltFS name fs artifact files (outputPath name) = some artifact := by
  unfold rebuiltFS jsonCache.write
  rw [FS.write_ne _ _ _ _ (outputPath_ne_packageJsonPath name),
    FS.write_ne _ _ _ _ (outputPath_ne_cacheFilePath name), FS.write_self]

theorem rebuiltFS_cache (name : String) (fs : FS) (artifact : String)
    (files : List (String × String)) :
    rebuiltFS name fs artifact files (cacheFilePath name)
      = some (Json.stringify (cacheRecordJson files)) := by
  unfold rebuiltFS jsonCache.write
  rw [FS.write_ne _ _ _ _ (cacheFilePath_ne_packageJsonPath name), FS.write_self]
  rfl

theorem rebuiltFS_other (name : String) (fs : FS) (artifact : String)
    (files : List (String × String)) (q : String)
    (h1 : q ≠ outputPath name) (h2 : q ≠ cacheFilePath name)
    (h3 : q ≠ packageJsonPath name) :
    rebuiltFS name fs artifact files q = fs q := by
  unfold rebuiltFS jsonCache.write
  rw [FS.write_ne _ _ _ _ h3, FS.write_ne _ _ _ _ h2, FS.write_ne _ _ _ _ h1]

theorem depCheck_core (caps : Caps) (fs : FS) (p h : String) :
    (match readMaybeFileSync fs p with
      | none => (Except.ok true : Except LoadError Bool)
      | some content =>
        if content = "" then Except.ok true
        else Except.ok (getHash caps content != h))
      = Except.ok (depBad caps fs (p, h)) := by
  unfold depBad readMaybeFileSync
  cases fs p with
  | none => rfl
  | some content =>
    dsimp only
    by_cases hc : content = ""
    · rw [if_pos hc]
      subst hc
      rfl
    · rw [if_neg hc]
      have hb : (content == "") = false := by simpa using hc
      rw [hb]
      rfl

theorem depCheck_decodable (caps : Caps) (fs : FS) (e : Json)
    (pr : String × String) (h : Json.decodePair e = some pr) :
    depCheck caps fs e = .ok (depBad caps fs pr) := by
  cases e with
  | arr xs =>
    cases xs with
    | nil => simp [Json.decodePair] at h
    | cons x rest =>
      cases rest with
      | nil => simp [Json.decodePair] at h
      | cons y rest2 =>
        cases x with
        | str p =>
          cases y with
          | str q =>
            injection h with h
            subst h
            exact depCheck_core caps fs p q
          | null => simp [Json.decodePair] at h
          | bool b => simp [Json.decodePair] at h
          | num n => simp [Json.decodePair] at h
          | arr zs => simp [Json.decodePair] at h
          | obj fl => simp [Json.decodePair] at h
        | null => simp [Json.decodePair] at h
        | bool b => simp [Json.decodePair] at h
        | num n => simp [Json.decodePair] at h
        | arr zs => simp [Json.decodePair] at h
        | obj fl => simp [Json.decodePair] at h
  | str s =>
    unfold Json.decodePair at h
    dsimp only at h
    unfold depCheck destructurePair
    dsimp only
    cases hd : s.data with
    | nil => rw [hd] at h; cases h
    | cons c1 tl =>
      cases tl with
      | nil => rw [hd] at h; cases h
      | cons c2 tl2 =>
        rw [hd] at h
        injection h with h
        subst h
        dsimp only [List.get?, Option.map]
        exact depCheck_core caps fs (String.singleton c1) (String.singleton c2)
  | null => simp [Json.decodePair] at h
  | bool b => simp [Json.decodePair] at h
  | num n => simp [Json.decodePair] at h
  | obj fl => simp [Json.decodePair] at h

theorem jsFirst_decodable (e : Json) (pr : String × String)
    (h : Json.decodePair e = some pr) : jsFirst e = some (.str pr.1) := by
  cases e with
  | arr xs =>
    cases xs with
    | nil => simp [Json.decodePair] at h
    | cons x rest =>
      cases rest with
      | nil => simp [Json.decodePair] at h
      | cons y rest2 =>
        cases x with
        | str p =>
          cases y with
          | str q =>
            injection h with h
            subst h
            rfl
          | null => simp [Json.decodePair] at h
          | bool b => simp [Json.decodePair] at h
          | num n => simp [Json.decodePair] at h
          | arr zs => simp [Json.decodePair] at h
          | obj fl => simp [Json.decodePair] at h
        | null => simp [Json.decodePair] at h
        | bool b => simp [Json.decodePair] at h
        | num n => simp [Json.decodePair] at h
        | arr zs => simp [Json.decodePair] at h
        | obj fl => simp [Json.decodePair] at h
  | str s =>
    unfold Json.decodePair at h
    dsimp only at h
    unfold jsFirst
    dsimp only
    cases hd : s.data with
    | nil => rw [hd] at h; cases h
    | cons c1 tl =>
      cases tl with
      | nil => rw [hd] at h; cases h
      | cons c2 tl2 =>
        rw [hd] at h
        injection h with h
        subst h
        rfl
  | null => simp [Json.decodePair] at h
  | bool b => simp [Json.decodePair] at h
  | num n => simp [Json.decodePair] at h
  | obj fl => simp [Json.decodePair] at h

theorem jsonSome_decodable (caps : Caps) (fs : FS) (elems : List Json)
    (files : List (String × String)) (h : Json.decodePairs elems = some files) :
    jsonSome caps fs elems = .ok (files.any (depBad caps fs)) := by
  induction elems generalizing files with
  | nil =>
    unfold Json.decodePairs at h
    injection h with h
    subst h
    rfl
  | cons e rest ih =>
    unfold Json.decodePairs at h
    cases hde : Json.decodePair e with
    | none => rw [hde] at h; cases h
    | some pr =>
      rw [hde] at h
      cases hdr : Json.decodePairs rest with
      | none => rw [hdr] at h; cases h
      | some tail =>
        rw [hdr] at h
        injection h with h
        subst h
        unfold jsonSome
        rw [depCheck_decodable caps fs e pr hde]
        cases hb : depBad caps fs pr with
        | true => simp [List.any_cons, hb]
        | false =>
          dsimp only
          rw [ih tail hdr]
          simp [List.any_cons, hb]

theorem skipFiles_decodable (elems : List Json) (files : List (String × String))
    (h : Json.decodePairs elems = some files) :
    skipFiles elems = files.map Prod.fst := by
  induction elems generalizing files with
  | nil =>
    unfold Json.decodePairs at h
    injection h with h
    subst h
    rfl
  | cons e rest ih =>
    unfold Json.decodePairs at h
    cases hde : Json.decodePair e with
    | none => rw [hde] at h; cases h
    | some pr =>
      rw [hde] at h
      cases hdr : Json.decodePairs rest with
      | none => rw [hdr] at h; cases h
      | some tail =>
        rw [hdr] at h
        injection h with h
        subst h
        unfold skipFiles
        dsimp only [List.map_cons]
        rw [jsFirst_decodable e pr hde]
        have htail := ih tail hdr
        unfold skipFiles at htail
        rw [htail]

theorem cachedFiles_some_spec (cached : Option Json)
    (files : List (String × String)) (h : cachedFiles cached = some files) :
    ∃ j elems, cached = some j ∧ j.getField ("files") = some (.arr elems) ∧
      Json.decodePairs elems = some files := by
  unfold cachedFiles at h
  cases cached with
  | none => exact absurd h (by simp)
  | some j =>
    dsimp only [Option.bind] at h
    cases hg : j.getField ("files") with
    | none => rw [hg] at h; exact absurd h (by simp)
    | some f =>
      rw [hg] at h
      dsimp only [Option.bind] at h
      cases f with
      | arr elems => exact ⟨j, elems, rfl, hg, h⟩
      | null => exact absurd h (by simp [Json.decodeFiles])
      | bool b => exact absurd h (by simp [Json.decodeFiles])
      | num n => exact absurd h (by simp [Json.decodeFiles])
      | str s => exact absurd h (by simp [Json.decodeFiles])
      | obj fl => exact absurd h (by simp [Json.decodeFiles])

theorem checkCache_reuse_of (caps : Caps) (fs : FS) (j : Json)
    (elems : List Json) (hg : j.getField ("files") = some (.arr elems))
    (hs : jsonSome caps fs elems = .ok false) :
    checkCache caps fs (some j) = .reuse elems := by
  unfold checkCache
  dsimp only [Option.bind]
  rw [hg]
  dsimp only
  rw [hs]
  rfl

theorem checkCache_rebuild_of (caps : Caps) (fs : FS) (j : Json)
    (elems : List Json) (hg : j.getField ("files") = some (.arr elems))
    (hs : jsonSome caps fs elems = .ok true) :
    checkCache caps fs (some j) = .rebuild := by
  unfold checkCache
  dsimp only [Option.bind]
  rw [hg]
  dsimp only
  rw [hs]
  rfl

theorem reuse_of_valid (caps : Caps) (fs : FS) (cached : Option Json)
    (files : List (String × String))
    (hfiles : cachedFiles cached = some files)
    (hvalid : files.any (depBad caps fs) = false) :
    ∃ elems, checkCache caps fs cached = .reuse elems ∧
      skipFiles elems = files.map Prod.fst := by
  obtain ⟨j, elems, hj, hg, hdec⟩ := cachedFiles_some_spec cached files hfiles
  subst hj
  refine ⟨elems, ?_, skipFiles_decodable elems files hdec⟩
  apply checkCache_reuse_of caps fs j elems hg
  rw [jsonSome_decodable caps fs elems files hdec, hvalid]

theorem rebuild_of_invalid (caps : Caps) (fs : FS) (cached : Option Json)
    (files : List (String × String))
    (hfiles : cachedFiles cached = some files)
    (hany : files.any (depBad caps fs) = true) :
    checkCache caps fs cached = .rebuild := by
  obtain ⟨j, elems, hj, hg, hdec⟩ := cachedFiles_some_spec cached files hfiles
  subst hj
  apply checkCache_rebuild_of caps fs j elems hg
  rw [jsonSome_decodable caps fs elems files hdec, hany]

theorem finishLoad_ok (caps : Caps) (entry output : String) (fs : FS)
    (b : Bool) (files : List String) (artifact : String)
    (hart : fs output = some artifact)
    (ht : (caps.execute artifact).truthy = true) :
    finishLoad caps entry output fs b files
      = ⟨fs, b, .ok (some ⟨resolveConfigExport (caps.execute artifact), files⟩)⟩ := by
  unfold finishLoad
  rw [hart]
  dsimp only
  rw [ht]
  rfl

theorem finishLoad_noExport (caps : Caps) (entry output : String) (fs : FS)
    (b : Bool) (files : List String) (artifact : String)
    (hart : fs output = some artifact)
    (ht : (caps.execute artifact).truthy = false) :
    finishLoad caps entry output fs b files
      = ⟨fs, b, .error (configExportError entry)⟩ := by
  unfold finishLoad
  rw [hart]
  dsimp only
  rw [ht]
  rfl

theorem rebuild_ok_eq (caps : Caps) (name : String) (fs : FS)
    (inputs : List String) (artifact : String) (files : List (String × String))
    (hbuild : caps.build fs (entryPoint name) (outputPath name) = .ok (inputs, artifact))
    (hhash : hashInputs caps (FS.write fs (outputPath name) artifact) inputs = .ok files) :
    rebuild caps name fs
      = finishLoad caps (entryPoint name) (outputPath name)
          (rebuiltFS name fs artifact files) true (files.map Prod.fst) := by
  unfold rebuild
  rw [hbuild]
  dsimp only
  rw [hhash]
  rfl

theorem loadConfig_fresh_eq (caps : Caps) (name : String) (fs : FS)
    (hentry : ∃ c, fs (entryPoint name) = some c)
    (hcache : fs (cacheFilePath name) = none) :
    loadConfig caps name fs = rebuild caps name fs := by
  obtain ⟨c, hc⟩ := hentry
  have hread : jsonCache.read caps.jsonParse (cacheFilePath name) (.num 4) fs
      = .ok none := by
    unfold jsonCache.read readMaybeFileSync
    rw [hcache]
  unfold loadConfig
  rw [hc]
  dsimp only
  rw [hread]
  rfl

theorem loadConfig_reuse_eq (caps : Caps) (name : String) (fs : FS)
    (cached : Option Json) (elems : List Json)
    (hentry : ∃ c, fs (entryPoint name) = some c)
    (hread : jsonCache.read caps.jsonParse (cacheFilePath name) (.num 4) fs = .ok cached)
    (hcheck : checkCache caps fs cached = .reuse elems) :
    loadConfig caps name fs
      = finishLoad caps (entryPoint name) (outputPath name) fs false
          (skipFiles elems) := by
  obtain ⟨c, hc⟩ := hentry
  unfold loadConfig
  rw [hc]
  dsimp only
  rw [hread]
  dsimp only
  rw [hcheck]

theorem loadConfig_rebuild_eq (caps : Caps) (name : String) (fs : FS)
    (cached : Option Json)
    (hentry : ∃ c, fs (entryPoint name) = some c)
    (hread : jsonCache.read caps.jsonParse (cacheFilePath name) (.num 4) fs = .ok cached)
    (hcheck : checkCache caps fs cached = .rebuild) :
    loadConfig caps name fs = rebuild caps name fs := by
  obtain ⟨c, hc⟩ := hentry
  unfold loadConfig
  rw [hc]
  dsimp only
  rw [hread]
  dsimp only
  rw [hcheck]

theorem filter_keeps_of_lookup_none (data : List (String × Json))
    (h : data.lookup ("version") = none) :
    (data.filter fun f => f.1 != "version") = data := by
  induction data with
  | nil => rfl
  | cons f rest ih =>
    cases hk : (("version" : String) == f.1) with
    | true =>
      exfalso
      have hlk : List.lookup ("version") (f :: rest) = some f.2 := by
        unfold List.lookup
        rw [hk]
      rw [hlk] at h
      exact Option.noConfusion h
    | false =>
      have hrest : List.lookup ("version") rest = none := by
        unfold List.lookup at h
        rw [hk] at h
        exact h
      have hne : (f.1 != "version") = true := by
        have : ("version" : String) ≠ f.1 := by simpa using hk
        simp [bne_iff_ne, Ne.symm this]
      rw [List.filter_cons, if_pos hne, ih hrest]

theorem resolveConfigExport_deferred (f : Unit → JSValue) (v : JSValue)
    (hv : f () = .promise v) : resolveConfigExport (.func f) = v := by
  show JSValue.jsAwait (f ()) = v
  rw [hv]
  rfl

theorem resolveConfigExport_plain (v : JSValue) (h : v.isFunction = false) :
    resolveConfigExport v = v := by
  cases v <;> simp_all [JSValue.isFunction, resolveConfigExport]

/-! ### Claim theorems -/

/-- C8: when the entry file `<name>.config.ts` does not exist, loadConfig
returns absent — no result and no error — and performs no writes: the
filesystem is unchanged, so no cache record, artifact, or marker file is
created, and the compilation capability is not invoked. -/
theorem loadConfig_absent_entry (caps : Caps) (name : String) (fs : FS)
    (h : fs (entryPoint name) = none) :
    (loadConfig caps name fs).result = .ok none ∧
      (loadConfig caps name fs).compiled = false ∧
      (loadConfig caps name fs).fs = fs := by
  unfold loadConfig
  rw [h]
  exact ⟨rfl, rfl, rfl⟩

/-- The absent-entry theorem evaluated on the empty filesystem. -/
theorem loadConfig_absent_entry_witness :
    (loadConfig testCaps "app" fsEmpty).result = .ok none ∧
      (loadConfig testCaps "app" fsEmpty).compiled = false ∧
      (loadConfig testCaps "app" fsEmpty).fs = fsEmpty :=
  loadConfig_absent_entry testCaps ("app") fsEmpty rfl

/-- C4 (amended): when the cache file exists with non-empty content that
cannot be parsed as JSON, the cache component's read() raises the parse
error instead of returning absent; absent is returned only for a missing
file, an existing empty file (the `!content` falsiness of the source), or
a schema-version mismatch. -/
theorem jsonCache_read_unparseable_raises (parse : String → Option Json)
    (path : String) (version : Json) (fs : FS) (content : String)
    (hc : fs path = some content) (hne : content ≠ "")
    (hp : parse content = none) :
    jsonCache.read parse path version fs = .error (.jsonParse content) ∧
      ∀ fs2 : FS, fs2 path = some ("") →
        jsonCache.read parse path version fs2 = .ok none := by
  constructor
  · unfold jsonCache.read readMaybeFileSync
    rw [hc]
    dsimp only
    rw [if_neg hne, hp]
  · intro fs2 h2
    unfold jsonCache.read readMaybeFileSync
    rw [h2]
    rfl

/-- The unparseable-cache theorem evaluated on a concrete garbage file and
a concrete empty cache file. -/
theorem jsonCache_read_unparseable_raises_witness :
    jsonCache.read testParse (cacheFilePath ("app")) (.num 4) fsGarbage
        = .error (.jsonParse ("garbage")) ∧
      jsonCache.read testParse (cacheFilePath ("app")) (.num 4) fsEmptyCacheFile
        = .ok none :=
  ⟨(jsonCache_read_unparseable_raises testParse (cacheFilePath ("app")) (.num 4)
      fsGarbage ("garbage") rfl (by decide) rfl).1,
    (jsonCache_read_unparseable_raises testParse (cacheFilePath ("app")) (.num 4)
      fsGarbage ("garbage") rfl (by decide) rfl).2 fsEmptyCacheFile rfl⟩

/-- C4 counterexample: with a cache file holding unparseable text, read()
raises a parse error; it does not return absent as the claim states. -/
theorem jsonCache_read_absent_on_garbage_counterexample :
    jsonCache.read testParse (cacheFilePath ("app")) (.num 4) fsGarbage
        = .error (.jsonParse ("garbage")) ∧
      ¬ jsonCache.read testParse (cacheFilePath ("app")) (.num 4) fsGarbage
        = .ok none :=
  ⟨rfl, fun h => Except.noConfusion h⟩

/-- C9 (amended): write(payload) persists the schema version together with
the payload — combined by the JS spread `{ version, ...data }`, under which
a payload carrying its own version key overrides the stamp while an
ordinary payload gets the stamp prepended — as compact (single-line) JSON,
fully overwriting any prior content of the cache file and touching no
other path. -/
theorem jsonCache_write_version_overwrite (path : String) (version : Json)
    (data : List (String × Json)) (fs : FS) :
    (jsonCache.write path version data fs) path
        = some (Json.stringify (.obj (spreadVersion version data))) ∧
      (data.lookup ("version") = none →
        spreadVersion version data = ("version", version) :: data) ∧
      ∀ q, q ≠ path → (jsonCache.write path version data fs) q = fs q := by
  refine ⟨by simp [jsonCache.write, FS.write], ?_, ?_⟩
  · intro hnone
    unfold spreadVersion
    rw [hnone, filter_keeps_of_lookup_none data hnone]
    rfl
  · intro q hq
    simp [jsonCache.write, FS.write, hq]

/-- The write theorem evaluated on a concrete payload (without its own
version key) and a path distinct from the cache file. -/
theorem jsonCache_write_version_overwrite_witness :
    (jsonCache.write (cacheFilePath ("app")) (.num 4) [("files", .arr [])] fsEmpty)
        (cacheFilePath ("app"))
        = some (Json.stringify (.obj (spreadVersion (.num 4) [("files", .arr [])]))) ∧
      spreadVersion (.num 4) [("files", Json.arr [])]
        = ("version", Json.num 4) :: [("files", Json.arr [])] ∧
      (jsonCache.write (cacheFilePath ("app")) (.num 4) [("files", .arr [])] fsEmpty)
        ("other.txt") = fsEmpty ("other.txt") :=
  ⟨(jsonCache_write_version_overwrite (cacheFilePath ("app")) (.num 4)
      [("files", .arr [])] fsEmpty).1,
    (jsonCache_write_version_overwrite (cacheFilePath ("app")) (.num 4)
      [("files", .arr [])] fsEmpty).2.1 rfl,
    (jsonCache_write_version_overwrite (cacheFilePath ("app")) (.num 4)
      [("files", .arr [])] fsEmpty).2.2 ("other.txt") (by decide)⟩

/-- C9 counterexample: the persisted cache text is the compact rendering,
not the pretty-printed one the claim asserts. -/
theorem jsonCache_write_pretty_counterexample :
    (jsonCache.write (cacheFilePath ("app")) (.num 4) [("files", Json.arr [])] fsEmpty)
        (cacheFilePath ("app"))
      ≠ some (Json.stringifyPretty 0 (.obj [("version", .num 4), ("files", .arr [])])) := by
  decide

/-- C5: when a dependency file recorded in a readable cache has been
deleted, the validation read returns absent rather than raising, and
loadConfig invokes the compilation capability (full recompilation). -/
theorem loadConfig_deleted_dep_recompiles (caps : Caps) (name : String)
    (fs : FS) (cached : Option Json) (files : List (String × String))
    (pr : String × String)
    (hentry : ∃ c, fs (entryPoint name) = some c)
    (hread : jsonCache.read caps.jsonParse (cacheFilePath name) (.num 4) fs = .ok cached)
    (hfiles : cachedFiles cached = some files)
    (hmem : pr ∈ files) (hmiss : fs pr.1 = none) :
    (loadConfig caps name fs).compiled = true ∧
      readMaybeFileSync fs pr.1 = none := by
  have hbad : depBad caps fs pr = true := by
    unfold depBad readMaybeFileSync
    rw [hmiss]
  have hany : files.any (depBad caps fs) = true :=
    List.any_eq_true.mpr ⟨pr, hmem, hbad⟩
  have hck : checkCache caps fs cached = .rebuild :=
    rebuild_of_invalid caps fs cached files hfiles hany
  have hrb := loadConfig_rebuild_eq caps name fs cached hentry hread hck
  refine ⟨?_, by unfold readMaybeFileSync; rw [hmiss]⟩
  rw [hrb]
  exact rebuild_compiled ..

/-- The deleted-dependency theorem evaluated on a cache recording the
deleted file `dep.ts`. -/
theorem loadConfig_deleted_dep_recompiles_witness :
    (loadConfig testCaps "app" fsMissingDep).compiled = true ∧
      readMaybeFileSync fsMissingDep ("dep.ts") = none :=
  loadConfig_deleted_dep_recompiles testCaps ("app") fsMissingDep
    (some ((cacheRecordJson depsB).deleteField ("version"))) depsB
    (("dep.ts"), testSha1 ("d")) ⟨"x", rfl⟩ rfl rfl (List.mem_singleton.mpr rfl) rfl

/-- C7: for a compilable entry file (the fresh compilation succeeds) whose
loaded module lacks the config export, loadConfig raises a fatal error
whose message names the missing "config" export and the entry file. -/
theorem loadConfig_missing_export_error (caps : Caps) (name : String) (fs : FS)
    (inputs : List String) (artifact : String) (files1 : List (String × String))
    (hentry : ∃ c, fs (entryPoint name) = some c)
    (hcache : fs (cacheFilePath name) = none)
    (hbuild : caps.build fs (entryPoint name) (outputPath name) = .ok (inputs, artifact))
    (hhash : hashInputs caps (FS.write fs (outputPath name) artifact) inputs = .ok files1)
    (hexec : (caps.execute artifact).truthy = false) :
    (loadConfig caps name fs).result
      = .error (.missingExport
          (entryPoint name ++ " doesn\x27t have a \x22config\x22 export")) := by
  rw [loadConfig_fresh_eq caps name fs hentry hcache,
    rebuild_ok_eq caps name fs inputs artifact files1 hbuild hhash,
    finishLoad_noExport caps (entryPoint name) (outputPath name)
      (rebuiltFS name fs artifact files1) true (files1.map Prod.fst) artifact
      (rebuiltFS_output name fs artifact files1) hexec]
  rfl

/-- The missing-export theorem evaluated with a module that has no config
export, compiled from a fresh entry file. -/
theorem loadConfig_missing_export_error_witness :
    (loadConfig capsNoExport "app" fsFresh).result
      = .error (.missingExport
          (entryPoint ("app") ++ " doesn\x27t have a \x22config\x22 export")) :=
  loadConfig_missing_export_error capsNoExport ("app") fsFresh
    [entryPoint ("app")] ("built-artifact") depsA
    ⟨"export cfg", rfl⟩ rfl rfl rfl rfl

/-- C10: a present but falsy config export (false, 0, the empty string, or
null) makes loadConfig throw exactly the same missing-export error as a
truly absent export — `configExportError` is the error of the absent case —
so a falsy configuration value can never be returned. -/
theorem loadConfig_falsy_export_error (caps : Caps) (name : String) (fs : FS)
    (cached : Option Json) (files : List (String × String)) (artifact : String)
    (hentry : ∃ c, fs (entryPoint name) = some c)
    (hread : jsonCache.read caps.jsonParse (cacheFilePath name) (.num 4) fs = .ok cached)
    (hfiles : cachedFiles cached = some files)
    (hvalid : files.any (depBad caps fs) = false)
    (hart : fs (outputPath name) = some artifact)
    (hexec : (caps.execute artifact).truthy = false) :
    (loadConfig caps name fs).result = .error (configExportError (entryPoint name)) ∧
      ∀ r, (loadConfig caps name fs).result ≠ .ok r := by
  obtain ⟨elems, hck, hsk⟩ := reuse_of_valid caps fs cached files hfiles hvalid
  rw [loadConfig_reuse_eq caps name fs cached elems hentry hread hck,
    finishLoad_noExport caps (entryPoint name) (outputPath name) fs false
      (skipFiles elems) artifact hart hexec]
  exact ⟨rfl, fun r hr => Except.noConfusion hr⟩

/-- The falsy-export theorem evaluated with an exported 0 on a valid cache. -/
theorem loadConfig_falsy_export_error_witness :
    (loadConfig capsZero "app" fsValidCache).result
        = .error (configExportError (entryPoint ("app"))) ∧
      ∀ r, (loadConfig capsZero "app" fsValidCache).result ≠ .ok r :=
  loadConfig_falsy_export_error capsZero ("app") fsValidCache
    (some ((cacheRecordJson depsA).deleteField ("version"))) depsA ("old-artifact")
    ⟨"export cfg", rfl⟩ rfl rfl rfl rfl rfl

/-- C6: loadConfig resolves the config export exactly by
`typeof config === "function" ? await config() : config`: a callable
export returning a deferred (promise) value is invoked and awaited, so the
returned config is the resolved inner value — never the callable itself or
the unresolved promise wrapper — while a plain (non-callable) export is
returned directly. -/
theorem loadConfig_resolves_deferred_export (caps : Caps) (name : String) (fs : FS)
    (cached : Option Json) (files : List (String × String)) (artifact : String)
    (hentry : ∃ c, fs (entryPoint name) = some c)
    (hread : jsonCache.read caps.jsonParse (cacheFilePath name) (.num 4) fs = .ok cached)
    (hfiles : cachedFiles cached = some files)
    (hvalid : files.any (depBad caps fs) = false)
    (hart : fs (outputPath name) = some artifact)
    (htruthy : (caps.execute artifact).truthy = true) :
    (loadConfig caps name fs).result
        = .ok (some ⟨resolveConfigExport (caps.execute artifact),
            files.map Prod.fst⟩) ∧
      (∀ f v, caps.execute artifact = .func f → f () = .promise v →
        resolveConfigExport (caps.execute artifact) = v) ∧
      ((caps.execute artifact).isFunction = false →
        resolveConfigExport (caps.execute artifact) = caps.execute artifact) := by
  refine ⟨?_, ?_, ?_⟩
  · obtain ⟨elems, hck, hsk⟩ := reuse_of_valid caps fs cached files hfiles hvalid
    rw [loadConfig_reuse_eq caps name fs cached elems hentry hread hck,
      finishLoad_ok caps (entryPoint name) (outputPath name) fs false
        (skipFiles elems) artifact hart htruthy, hsk]
  · intro f v hf hv
    rw [hf]
    exact resolveConfigExport_deferred f v hv
  · intro h
    exact resolveConfigExport_plain _ h

/-- The deferred-export theorem evaluated with an async producer of 3000. -/
theorem loadConfig_resolves_deferred_export_witness :
    (loadConfig capsDeferred "app" fsValidCache).result
        = .ok (some ⟨resolveConfigExport (capsDeferred.execute ("old-artifact")),
            depsA.map Prod.fst⟩) ∧
      (∀ f v, capsDeferred.execute ("old-artifact") = .func f → f () = .promise v →
        resolveConfigExport (capsDeferred.execute ("old-artifact")) = v) ∧
      ((capsDeferred.execute ("old-artifact")).isFunction = false →
        resolveConfigExport (capsDeferred.execute ("old-artifact"))
          = capsDeferred.execute ("old-artifact")) :=
  loadConfig_resolves_deferred_export capsDeferred ("app") fsValidCache
    (some ((cacheRecordJson depsA).deleteField ("version"))) depsA ("old-artifact")
    ⟨"export cfg", rfl⟩ rfl rfl rfl rfl rfl

/-- C2 (amended): two successive loadConfig calls for the same name, where
the first compiles from a fresh cache, every dependency content is
non-empty and untouched by the cache-directory writes, the JSON capability
round-trips the written cache record, and the fingerprint capability is a
function of the content (determinism): the second call does not invoke the
compilation capability at all and returns a files list identical to the
first call's. -/
theorem loadConfig_noop_stability (caps : Caps) (name : String) (fs : FS)
    (inputs : List String) (artifact : String) (files1 : List (String × String))
    (hentry : ∃ c, fs (entryPoint name) = some c)
    (hcache0 : fs (cacheFilePath name) = none)
    (hbuild : caps.build fs (entryPoint name) (outputPath name) = .ok (inputs, artifact))
    (hhash : hashInputs caps (FS.write fs (outputPath name) artifact) inputs = .ok files1)
    (hentryIn : entryPoint name ∈ inputs)
    (hins : ∀ p ∈ inputs, p ≠ outputPath name ∧ p ≠ cacheFilePath name ∧
      p ≠ packageJsonPath name ∧ ∃ c, fs p = some c ∧ c ≠ "")
    (hparse : caps.jsonParse (Json.stringify (cacheRecordJson files1))
      = some (cacheRecordJson files1))
    (htruthy : (caps.execute artifact).truthy = true) :
    (loadConfig caps name ((loadConfig caps name fs).fs)).compiled = false ∧
      ∃ r1 r2,
        (loadConfig caps name fs).result = .ok (some r1) ∧
          (loadConfig caps name ((loadConfig caps name fs).fs)).result
            = .ok (some r2) ∧
          r2.files = r1.files := by
  have h1 : loadConfig caps name fs
      = ⟨rebuiltFS name fs artifact files1, true,
          .ok (some ⟨resolveConfigExport (caps.execute artifact),
            files1.map Prod.fst⟩)⟩ := by
    rw [loadConfig_fresh_eq caps name fs hentry hcache0,
      rebuild_ok_eq caps name fs inputs artifact files1 hbuild hhash,
      finishLoad_ok caps (entryPoint name) (outputPath name)
        (rebuiltFS name fs artifact files1) true (files1.map Prod.fst) artifact
        (rebuiltFS_output name fs artifact files1) htruthy]
  obtain ⟨he1, he2, he3, ce, hce, -⟩ := hins (entryPoint name) hentryIn
  have hFentry : rebuiltFS name fs artifact files1 (entryPoint name) = some ce := by
    rw [rebuiltFS_other name fs artifact files1 _ he1 he2 he3]
    exact hce
  have hFread : jsonCache.read caps.jsonParse (cacheFilePath name) (.num 4)
      (rebuiltFS name fs artifact files1)
      = .ok (some (Json.obj [("files", filesToJson files1)])) :=
    read_written_cache caps.jsonParse (cacheFilePath name)
      (rebuiltFS name fs artifact files1) files1
      (rebuiltFS_cache name fs artifact files1) hparse
  obtain ⟨-, hspec⟩ := hashInputs_spec caps (FS.write fs (outputPath name) artifact)
    inputs files1 hhash
  have hvalid : files1.any (depBad caps (rebuiltFS name fs artifact files1)) = false := by
    rw [List.any_eq_false]
    intro pr hmem
    obtain ⟨hin, c1, hc1, hh1⟩ := hspec pr hmem
    obtain ⟨hne1, hne2, hne3, c2, hc2, hcne2⟩ := hins pr.1 hin
    rw [FS.write_ne _ _ _ _ hne1, hc2] at hc1
    injection hc1 with hc1
    subst hc1
    have hFpr : rebuiltFS name fs artifact files1 pr.1 = some c2 := by
      rw [rebuiltFS_other name fs artifact files1 _ hne1 hne2 hne3]
      exact hc2
    have hfalse := (depBad_eq_false_iff caps
      (rebuiltFS name fs artifact files1) pr).mpr ⟨c2, hFpr, hcne2, hh1⟩
    simp [hfalse]
  have hdecW : Json.decodePairs (files1.map fun pr => Json.arr [.str pr.1, .str pr.2])
      = some files1 := decodePairs_map files1
  have hck : checkCache caps (rebuiltFS name fs artifact files1)
      (some (Json.obj [("files", filesToJson files1)]))
      = .reuse (files1.map fun pr => Json.arr [.str pr.1, .str pr.2]) := by
    apply checkCache_reuse_of
    · rfl
    · rw [jsonSome_decodable caps (rebuiltFS name fs artifact files1) _ files1 hdecW,
        hvalid]
  have h3 : loadConfig caps name (rebuiltFS name fs artifact files1)
      = ⟨rebuiltFS name fs artifact files1, false,
          .ok (some ⟨resolveConfigExport (caps.execute artifact),
            files1.map Prod.fst⟩)⟩ := by
    rw [loadConfig_reuse_eq caps name (rebuiltFS name fs artifact files1)
        (some (Json.obj [("files", filesToJson files1)]))
        (files1.map fun pr => Json.arr [.str pr.1, .str pr.2])
        ⟨ce, hFentry⟩ hFread hck,
      finishLoad_ok caps (entryPoint name) (outputPath name)
        (rebuiltFS name fs artifact files1) false
        (skipFiles (files1.map fun pr => Json.arr [.str pr.1, .str pr.2])) artifact
        (rebuiltFS_output name fs artifact files1) htruthy,
      skipFiles_decodable _ files1 hdecW]
  refine ⟨?_, ⟨resolveConfigExport (caps.execute artifact), files1.map Prod.fst⟩,
    ⟨resolveConfigExport (caps.execute artifact), files1.map Prod.fst⟩,
    ?_, ?_, rfl⟩
  · rw [h1]
    dsimp only
    rw [h3]
  · rw [h1]
  · rw [h1]
    dsimp only
    rw [h3]

/-- The no-op stability theorem evaluated on a fresh non-empty entry file:
the first call compiles, the second reuses the cache. -/
theorem loadConfig_noop_stability_witness :
    (loadConfig testCaps "app" ((loadConfig testCaps "app" fsFresh).fs)).compiled
        = false ∧
      ∃ r1 r2,
        (loadConfig testCaps "app" fsFresh).result = .ok (some r1) ∧
          (loadConfig testCaps "app" ((loadConfig testCaps "app" fsFresh).fs)).result
            = .ok (some r2) ∧
          r2.files = r1.files :=
  loadConfig_noop_stability testCaps ("app") fsFresh [entryPoint ("app")]
    ("built-artifact") depsA
    ⟨"export cfg", rfl⟩ rfl rfl rfl (List.mem_singleton.mpr rfl)
    (by
      intro p hp
      rw [List.mem_singleton] at hp
      subst hp
      exact ⟨by decide, by decide, by decide, "export cfg", rfl, by decide⟩)
    rfl rfl

/-- C2 counterexample: an empty entry file whose content is unchanged
between the two calls — the first call compiles and records the matching
fingerprint of the empty content, yet the second call invokes the
compilation capability again. -/
theorem loadConfig_noop_stability_counterexample :
    fsEmptyFresh ("app.config.ts") = some ("") ∧
      (loadConfig testCaps "app" fsEmptyFresh).fs ("app.config.ts") = some ("") ∧
      (loadConfig testCaps "app" fsEmptyFresh).compiled = true ∧
      (loadConfig testCaps "app"
        ((loadConfig testCaps "app" fsEmptyFresh).fs)).compiled = true :=
  ⟨rfl, rfl, rfl, rfl⟩

end ConfigLoader
